import Mathlib

/-!
# Verification of the Aura Elite Events quotation core

Shallow embedding of the quotation application's core logic:

* document numbering (the `useState` initializer computing `newQuotationNumber`
  in the unnamed app component),
* derived totals (the `useMemo` block computing subtotal / gstAmount /
  grandTotal / advanceAmount / balanceDue),
* line-item list operations (`handleItemChange`, `removeItem`),
* the description-generation helper (`generateDescription` in
  `src/services/geminiService.ts`) and its caller
  (`handleGenerateDescription` with its `generatingItems` set).

JavaScript strings are modelled as Lean `String`s, with the JS string
operations (`startsWith`, `substring`, `padStart`, `trim`, `parseInt`)
translated explicitly over the character list.  JS numbers are modelled as
rationals (`ℚ`), so arithmetic identities are exact.
-/

namespace AuraElite

/-- Models `String.prototype.padStart(n, c)`: left-pad with `c` up to
length `n` (no-op when the string is already at least that long). -/
def padStart (s : String) (n : Nat) (c : Char) : String :=
  String.mk (List.replicate (n - s.data.length) c ++ s.data)

/-- Models `String.prototype.startsWith(p)`. -/
def jsStartsWith (s p : String) : Bool :=
  p.data.isPrefixOf s.data

/-- Models `String.prototype.substring(n)` (take the part from index `n`). -/
def jsDrop (s : String) (n : Nat) : String :=
  String.mk (s.data.drop n)

/-- Models `String.prototype.trim()`: strip leading and trailing whitespace. -/
def jsTrim (s : String) : String :=
  String.mk (((s.data.dropWhile Char.isWhitespace).reverse.dropWhile
    Char.isWhitespace).reverse)

/-- Leading decimal digits of a character list. -/
def takeDigits : List Char → List Char
  | [] => []
  | c :: cs => if c.isDigit then c :: takeDigits cs else []

/-- Numeric value of a list of decimal digit characters. -/
def digitsToNat (l : List Char) : Nat :=
  l.foldl (fun acc c => acc * 10 + (c.toNat - '0'.toNat)) 0

/-- Models `parseInt(s, 10)`: skip leading whitespace, read an optional
sign, then the maximal run of leading decimal digits; `none` is `NaN`
(no digits found). Trailing garbage is ignored, as in JS. -/
def parseIntJS (s : String) : Option Int :=
  match s.data.dropWhile Char.isWhitespace with
  | '-' :: rest =>
      let d := takeDigits rest
      if d.isEmpty then none else some (-(digitsToNat d : Int))
  | '+' :: rest =>
      let d := takeDigits rest
      if d.isEmpty then none else some ((digitsToNat d : Int))
  | cs =>
      let d := takeDigits cs
      if d.isEmpty then none else some ((digitsToNat d : Int))

/-- The month scoped identifier stem `` `AEE-${year}${month}-` `` built by the
`useState` initializer, where `month` is `today.getMonth() + 1` rendered
through `padStart(2, '0')`. -/
def aeePfx (year month : Nat) : String :=
  "AEE-" ++ toString year ++ padStart (toString month) 2 '0' ++ "-"

/-- The `nextSequence` computation of the initializer: start from 1; when the
stored value is truthy and starts with the current month's stem, parse the
trailing suffix with `parseInt` and, when that is not `NaN`, use it plus 1. -/
def nextSequence (lastIssued : Option String) (pfx : String) : Int :=
  match lastIssued with
  | none => 1
  | some s =>
      if !s.data.isEmpty && jsStartsWith s pfx then
        match parseIntJS (jsDrop s pfx.data.length) with
        | some n => n + 1
        | none => 1
      else 1

/-- The full `newQuotationNumber` computation:
`` `${prefix}${nextSequence.toString().padStart(3, '0')}` ``. -/
def nextIdentifier (lastIssued : Option String) (year month : Nat) : String :=
  let pfx := aeePfx year month
  pfx ++ padStart (toString (nextSequence lastIssued pfx)) 3 '0'

/-- One billable row, from `types.ts` (`LineItem`).  `quantity` and `rate`
are JS numbers, modelled as rationals. -/
structure LineItem where
  id : String
  description : String
  quantity : ℚ
  rate : ℚ
  deriving DecidableEq, Repr

/-- The record produced by the totals `useMemo` block. -/
structure Totals where
  subtotal : ℚ
  gstAmount : ℚ
  grandTotal : ℚ
  advanceAmount : ℚ
  balanceDue : ℚ
  deriving DecidableEq, Repr

/-- The `useMemo` computation over `quotation.items`, `quotation.gstRate`
and `quotation.advancePercentage`:
`subtotal` is `reduce((acc, item) => acc + item.quantity * item.rate, 0)`;
the gst rate is replaced by 0 when negative (`gstRate >= 0 ? gstRate : 0`);
`advancePercentage` is used as stored, with no clamp here. -/
def computeTotals (items : List LineItem) (gstRate advancePercentage : ℚ) :
    Totals :=
  let subtotal := items.foldl (fun acc item => acc + item.quantity * item.rate) 0
  let g := if gstRate ≥ 0 then gstRate else 0
  let gstAmount := subtotal * (g / 100)
  let grandTotal := subtotal + gstAmount
  let advanceAmount := grandTotal * (advancePercentage / 100)
  let balanceDue := grandTotal - advanceAmount
  ⟨subtotal, gstAmount, grandTotal, advanceAmount, balanceDue⟩

/-- The value stored by `handleAdvanceChange`:
`Math.max(0, parseFloat(e.target.value) || 0)`.  The argument is the
`parseFloat` result, `none` standing for `NaN`; `|| 0` maps `NaN` and `0`
to `0`, then `Math.max` clamps at 0. -/
def handleAdvanceChangeValue (parsed : Option ℚ) : ℚ :=
  max 0 (match parsed with
         | none => 0
         | some x => if x = 0 then 0 else x)

/-- `removeItem`: `prev.items.filter(item => item.id !== id)`. -/
def removeItem (items : List LineItem) (id : String) : List LineItem :=
  items.filter (fun item => item.id != id)

/-- An updatable field together with its new value
(`field: keyof Omit<LineItem, 'id'>`, `value: string | number`). -/
inductive ItemField where
  | description (v : String)
  | quantity (v : ℚ)
  | rate (v : ℚ)
  deriving DecidableEq, Repr

/-- The spread `{ ...item, [field]: value }`. -/
def setField (item : LineItem) : ItemField → LineItem
  | .description v => { item with description := v }
  | .quantity v => { item with quantity := v }
  | .rate v => { item with rate := v }

/-- `handleItemChange`: `prev.items.map(item => item.id === id ?
{ ...item, [field]: value } : item)`. -/
def updateItem (items : List LineItem) (id : String) (f : ItemField) :
    List LineItem :=
  items.map (fun item => if item.id = id then setField item f else item)

/-- Fallback returned by `generateDescription` when the API key is absent. -/
def fallbackNoKey : String :=
  "API key not configured. Please enter a description manually."

/-- Fallback returned by `generateDescription` when the model call throws. -/
def fallbackFailed : String :=
  "Failed to generate description. Please try again or enter manually."

/-- `generateDescription` from `src/services/geminiService.ts`.  `apiKey`
models `process.env.API_KEY` (`none` for absent or empty, both falsy);
`call` models the outcome of `ai.models.generateContent` — `Except.error`
is a thrown error, caught by the `try`/`catch`.  On success the response
text is trimmed. -/
def generateDescription (apiKey : Option String)
    (call : Except String String) : String :=
  match apiKey with
  | none => fallbackNoKey
  | some _ =>
      match call with
      | .ok text => jsTrim text
      | .error _ => fallbackFailed

/-- The app state touched by `handleGenerateDescription`: the quotation's
item list and the `generatingItems` set of item ids awaiting a response. -/
structure AppState where
  items : List LineItem
  generating : Finset String
  deriving DecidableEq

/-- `setGeneratingItems(prev => new Set(prev).add(id))`. -/
def startGenerating (s : AppState) (id : String) : AppState :=
  { s with generating := insert id s.generating }

/-- The `finally` block: `newSet.delete(id)` on a copy of the set. -/
def settleGenerating (s : AppState) (id : String) : AppState :=
  { s with generating := s.generating.erase id }

/-- `handleGenerateDescription(id, currentDescription)`.  Returns the new
state and whether the collaborator was invoked.  The blank guard
(`if(!currentDescription.trim()) return`) exits before any effect; otherwise
the id is added to `generatingItems`, `generateDescription` is awaited
(it never throws, see `generateDescription`), its result is written through
`handleItemChange(id, 'description', …)`, and the `finally` block removes
the id from the set. -/
def handleGenerateDescription (apiKey : Option String) (s : AppState)
    (id : String) (currentDescription : String)
    (call : Except String String) : AppState × Bool :=
  if (jsTrim currentDescription).data.isEmpty then (s, false)
  else
    let s1 := startGenerating s id
    let newDescription := generateDescription apiKey call
    let s2 := { s1 with
                items := updateItem s1.items id (.description newDescription) }
    (settleGenerating s2 id, true)

/-! ## Supporting lemmas -/

lemma jsStartsWith_append (p s : String) : jsStartsWith (p ++ s) p = true := by
  unfold jsStartsWith
  rw [String.data_append]
  exact List.isPrefixOf_iff_prefix.mpr (List.prefix_append _ _)

lemma jsDrop_append (p s : String) : jsDrop (p ++ s) p.data.length = s := by
  unfold jsDrop
  rw [String.data_append, List.drop_left]

lemma aeePfx_data_ne_nil (y m : Nat) : (aeePfx y m).data ≠ [] := by
  unfold aeePfx
  intro h
  rw [String.data_append, String.data_append, String.data_append] at h
  have h4 : ("AEE-" : String).data = 'A' :: ['E', 'E', '-'] := rfl
  rw [h4] at h
  simp at h

lemma data_isEmpty_append_false (p s : String) (h : p.data ≠ []) :
    ((p ++ s).data.isEmpty) = false := by
  have hne : (p ++ s).data ≠ [] := by
    rw [String.data_append]
    intro hnil
    exact h (List.append_eq_nil.mp hnil).1
  simpa [List.isEmpty_iff] using hne

lemma nextSequence_of_append (y m : Nat) (suffix : String) :
    nextSequence (some (aeePfx y m ++ suffix)) (aeePfx y m) =
      match parseIntJS suffix with
      | some n => n + 1
      | none => 1 := by
  simp only [nextSequence]
  rw [jsStartsWith_append, jsDrop_append,
    data_isEmpty_append_false _ _ (aeePfx_data_ne_nil y m)]
  simp

lemma pad_one : padStart (toString (1 : Int)) 3 '0' = "001" := by decide

lemma foldl_add_map_sum (f : LineItem → ℚ) (l : List LineItem) (acc : ℚ) :
    l.foldl (fun a item => a + f item) acc = acc + (l.map f).sum := by
  induction l generalizing acc with
  | nil => simp
  | cons x xs ih => simp [ih, add_assoc]

lemma ite_nonneg_eq_max (x : ℚ) : (if x ≥ 0 then x else 0) = max x 0 := by
  rcases le_total 0 x with h | h
  · simp [h, max_eq_left h]
  · rcases eq_or_lt_of_le h with rfl | hlt
    · simp
    · simp [not_le.mpr hlt, max_eq_right h]

/-! ## Claims -/

/-- **C1.** For every stored last-issued identifier that is exactly the
current month's stem `AEE-<YYYY><MM>-` followed by a suffix that `parseInt`
accepts as the integer `n`, the startup computation yields the stem followed
by `n + 1` rendered through `padStart(3, '0')`. -/
theorem quote_number_increments (year month : Nat) (suffix : String) (n : Int)
    (h : parseIntJS suffix = some n) :
    nextIdentifier (some (aeePfx year month ++ suffix)) year month =
      aeePfx year month ++ padStart (toString (n + 1)) 3 '0' := by
  simp only [nextIdentifier]
  rw [nextSequence_of_append, h]

/-- Witness for C1: the spec's example
`nextIdentifier("AEE-202401-007", now = January 2024) = "AEE-202401-008"`. -/
theorem quote_number_increments_witness :
    nextIdentifier (some "AEE-202401-007") 2024 1 = "AEE-202401-008" := by
  have h := quote_number_increments 2024 1 "007" 7 (by decide)
  have e1 : aeePfx 2024 1 ++ "007" = "AEE-202401-007" := by decide
  have e2 : aeePfx 2024 1 ++ padStart (toString ((7 : Int) + 1)) 3 '0' =
      "AEE-202401-008" := by decide
  rw [e1, e2] at h
  exact h

/-- **C2.** A stored value that is absent, does not start with the current
month's stem, or has a suffix `parseInt` rejects, yields sequence `001`
(the computation is total — no error value is involved); in particular the
spec's two concrete examples hold. -/
theorem quote_number_resets (year month : Nat) :
    (nextIdentifier none year month = aeePfx year month ++ "001") ∧
    (∀ s : String, jsStartsWith s (aeePfx year month) = false →
        nextIdentifier (some s) year month = aeePfx year month ++ "001") ∧
    (∀ suffix : String, parseIntJS suffix = none →
        nextIdentifier (some (aeePfx year month ++ suffix)) year month =
          aeePfx year month ++ "001") ∧
    nextIdentifier (some "AEE-202312-007") 2024 1 = "AEE-202401-001" ∧
    nextIdentifier (some "AEE-202401-XYZ") 2024 1 = "AEE-202401-001" := by
  refine ⟨?_, ?_, ?_, by decide, by decide⟩
  · simp only [nextIdentifier]
    rw [show nextSequence none (aeePfx year month) = 1 from rfl, pad_one]
  · intro s h
    simp only [nextIdentifier, nextSequence]
    rw [h]
    simp [pad_one]
  · intro suffix h
    simp only [nextIdentifier]
    rw [nextSequence_of_append, h, pad_one]

/-- Witness for C2: the hypothesised branches at the spec's concrete
inputs — a wrong-month stored value and an unparseable suffix. -/
theorem quote_number_resets_witness :
    nextIdentifier (some "AEE-202312-007") 2024 1 = aeePfx 2024 1 ++ "001" ∧
    nextIdentifier (some (aeePfx 2024 1 ++ "XYZ")) 2024 1 =
      aeePfx 2024 1 ++ "001" :=
  ⟨(quote_number_resets 2024 1).2.1 "AEE-202312-007" (by decide),
   (quote_number_resets 2024 1).2.2.1 "XYZ" (by decide)⟩

/-- **C3.** The derived totals agree with the reference definitions:
`subtotal` is the sum of `quantity × rate` over the items, `gstAmount` is
`subtotal × (max(taxRate, 0) / 100)`, `grandTotal = subtotal + gstAmount`,
`advanceAmount = grandTotal × (advancePercent / 100)`,
`balanceDue = grandTotal - advanceAmount`; the empty item list gives the
all-zero record. -/
theorem computeTotals_correct (items : List LineItem) (tax adv : ℚ) :
    (computeTotals items tax adv).subtotal =
      (items.map (fun item => item.quantity * item.rate)).sum ∧
    (computeTotals items tax adv).gstAmount =
      (computeTotals items tax adv).subtotal * (max tax 0 / 100) ∧
    (computeTotals items tax adv).grandTotal =
      (computeTotals items tax adv).subtotal +
        (computeTotals items tax adv).gstAmount ∧
    (computeTotals items tax adv).advanceAmount =
      (computeTotals items tax adv).grandTotal * (adv / 100) ∧
    (computeTotals items tax adv).balanceDue =
      (computeTotals items tax adv).grandTotal -
        (computeTotals items tax adv).advanceAmount ∧
    computeTotals [] tax adv = ⟨0, 0, 0, 0, 0⟩ := by
  refine ⟨?_, ?_, rfl, rfl, rfl, ?_⟩
  · have h := foldl_add_map_sum (fun item => item.quantity * item.rate) items 0
    rw [zero_add] at h
    exact h
  · show (items.foldl _ 0) * ((if tax ≥ 0 then tax else 0) / 100) = _
    rw [ite_nonneg_eq_max]
    rfl
  · simp [computeTotals]

/-- Counterexample for **C4**: the totals `useMemo` uses
`advancePercentage` unclamped, so `-10` and `0` give different records on
a one-item list with a positive grand total. -/
theorem advance_unclamped_cex :
    computeTotals [⟨"1", "", 1, 100⟩] 0 (-10) ≠
      computeTotals [⟨"1", "", 1, 100⟩] 0 0 := by
  simp [computeTotals, Totals.mk.injEq]

/-- **C4 (amended).** The clamp lives in the input handler, not in the
totals computation: `handleAdvanceChange` maps every non-positive parsed
value to `0`, so totals computed from a handler-processed `-10` coincide
with those from a handler-processed `0`; `computeTotals` itself passes a
negative advance through (`advanceAmount = grandTotal × (-10/100)`). -/
theorem advance_clamped_by_handler (x : ℚ) (hx : x ≤ 0) :
    handleAdvanceChangeValue (some x) = 0 ∧
    (∀ (items : List LineItem) (tax : ℚ),
        computeTotals items tax (handleAdvanceChangeValue (some (-10))) =
          computeTotals items tax (handleAdvanceChangeValue (some 0))) ∧
    (computeTotals [⟨"1", "", 1, 100⟩] 0 (-10)).advanceAmount = -10 := by
  refine ⟨?_, ?_, by simp [computeTotals]; norm_num⟩
  · unfold handleAdvanceChangeValue
    rcases eq_or_ne x 0 with rfl | hne
    · simp
    · simp [hne, max_eq_left hx]
  · intro items tax
    have h1 : handleAdvanceChangeValue (some (-10)) = 0 := by
      unfold handleAdvanceChangeValue
      norm_num
    have h2 : handleAdvanceChangeValue (some 0) = 0 := by
      unfold handleAdvanceChangeValue
      simp
    rw [h1, h2]

/-- Witness for C4 (amended), at the spec's `advance = -10` on a concrete
one-item list. -/
theorem advance_clamped_by_handler_witness :
    handleAdvanceChangeValue (some (-10)) = 0 ∧
    computeTotals [⟨"1", "", 1, 100⟩] 0 (handleAdvanceChangeValue (some (-10))) =
      computeTotals [⟨"1", "", 1, 100⟩] 0 (handleAdvanceChangeValue (some 0)) :=
  ⟨(advance_clamped_by_handler (-10) (by norm_num)).1,
   (advance_clamped_by_handler (-10) (by norm_num)).2.1 [⟨"1", "", 1, 100⟩] 0⟩

/-- Counterexample for **C5**: with stored value `AEE-202401-999` in
January 2024, the produced identifier is `AEE-202401-1000`, whose
sequence field (the part after the month stem) has 4 characters, not 3. -/
theorem seq_field_three_digits_cex :
    nextIdentifier (some "AEE-202401-999") 2024 1 = "AEE-202401-1000" ∧
    (jsDrop (nextIdentifier (some "AEE-202401-999") 2024 1)
        (aeePfx 2024 1).data.length).data.length ≠ 3 := by
  constructor <;> decide

/-- **C5 (amended).** The identifier is the stem
`AEE-<YYYY><MM>-` (month two digits for calendar months 1–12) followed by
the decimal numeral of the sequence left-padded with `'0'` to a *minimum*
width of 3: the field's length is `max 3 (numeral length)`, hence exactly
3 only while the numeral fits, and longer once the sequence passes 999. -/
theorem identifier_format_padded (lastIssued : Option String)
    (year month : Nat) (h1 : 1 ≤ month) (h2 : month ≤ 12) :
    nextIdentifier lastIssued year month =
      aeePfx year month ++
        padStart (toString (nextSequence lastIssued (aeePfx year month)))
          3 '0' ∧
    aeePfx year month =
      "AEE-" ++ toString year ++ padStart (toString month) 2 '0' ++ "-" ∧
    (padStart (toString month) 2 '0').data.length = 2 ∧
    (∀ s : String, (padStart s 3 '0').data.length = max 3 s.data.length) := by
  refine ⟨rfl, rfl, ?_, ?_⟩
  · interval_cases month <;> decide
  · intro s
    simp [padStart]
    omega

/-- Witness for C5 (amended), at January 2024 with no stored value. -/
theorem identifier_format_padded_witness :
    nextIdentifier none 2024 1 =
      aeePfx 2024 1 ++
        padStart (toString (nextSequence none (aeePfx 2024 1))) 3 '0' ∧
    (padStart (toString (1 : Nat)) 2 '0').data.length = 2 :=
  ⟨(identifier_format_padded none 2024 1 (by decide) (by decide)).1,
   (identifier_format_padded none 2024 1 (by decide) (by decide)).2.2.1⟩

/-- **C6.** `removeItem` deletes exactly the item carrying the given id,
keeping the remaining items in order, and is the identity when no item
carries the id. -/
theorem removeItem_correct :
    (∀ (items : List LineItem) (id : String),
        (∀ item ∈ items, item.id ≠ id) → removeItem items id = items) ∧
    (∀ (l1 l2 : List LineItem) (x : LineItem) (id : String),
        x.id = id → (∀ item ∈ l1, item.id ≠ id) →
        (∀ item ∈ l2, item.id ≠ id) →
        removeItem (l1 ++ x :: l2) id = l1 ++ l2) := by
  have hself : ∀ (l : List LineItem) (id : String),
      (∀ item ∈ l, item.id ≠ id) → l.filter (fun item => item.id != id) = l := by
    intro l id h
    rw [List.filter_eq_self]
    intro a ha
    simpa using h a ha
  constructor
  · intro items id h
    exact hself items id h
  · intro l1 l2 x id hx h1 h2
    unfold removeItem
    rw [List.filter_append, List.filter_cons]
    simp only [hx, bne_self_eq_false, Bool.false_eq_true, if_false]
    rw [hself l1 id h1, hself l2 id h2]

/-- Witness for C6: removing an absent id is the identity; removing a
present id deletes exactly that item and keeps the order. -/
theorem removeItem_correct_witness :
    removeItem [⟨"a", "", 1, 2⟩] "zzz" = [⟨"a", "", 1, 2⟩] ∧
    removeItem ([⟨"a", "", 1, 2⟩] ++ ⟨"b", "", 3, 4⟩ :: [⟨"c", "", 5, 6⟩]) "b" =
      [⟨"a", "", 1, 2⟩] ++ [⟨"c", "", 5, 6⟩] :=
  ⟨removeItem_correct.1 [⟨"a", "", 1, 2⟩] "zzz" (by decide),
   removeItem_correct.2 [⟨"a", "", 1, 2⟩] [⟨"c", "", 5, 6⟩] ⟨"b", "", 3, 4⟩ "b"
     rfl (by decide) (by decide)⟩

/-- **C7.** `updateItem` is a frame-preserving pointwise map: the length is
unchanged; position `j` holds the original item when its id differs, and
the original item with only the addressed field replaced when it matches;
`setField` never touches the id and, for each field, rewrites exactly that
field with no sign validation (any rational, negative included, passes
through for quantity and rate). -/
theorem updateItem_frame (items : List LineItem) (id : String)
    (f : ItemField) :
    (updateItem items id f).length = items.length ∧
    (∀ j : Nat, (updateItem items id f)[j]? =
        (items[j]?).map
          (fun item => if item.id = id then setField item f else item)) ∧
    (∀ item : LineItem, (setField item f).id = item.id) ∧
    (∀ (item : LineItem) (s : String),
        setField item (.description s) = { item with description := s }) ∧
    (∀ (item : LineItem) (v : ℚ),
        setField item (.quantity v) = { item with quantity := v }) ∧
    (∀ (item : LineItem) (v : ℚ),
        setField item (.rate v) = { item with rate := v }) := by
  refine ⟨by simp [updateItem], ?_, ?_, fun _ _ => rfl, fun _ _ => rfl,
    fun _ _ => rfl⟩
  · intro j
    simp [updateItem]
  · intro item
    cases f <;> rfl

/-- **C8.** `generateDescription` always returns a plain string, never an
error: with the API key absent it is the fixed "not configured" fallback
whatever the call would do, and whenever the underlying call throws the
result is one of the two fixed fallback strings (the "failed" one when a
key is present). -/
theorem generateDescription_never_fails (apiKey : Option String)
    (call : Except String String) :
    (apiKey = none → generateDescription apiKey call = fallbackNoKey) ∧
    (∀ k : String, apiKey = some k → ∀ e : String,
        generateDescription (some k) (Except.error e) = fallbackFailed) ∧
    (∀ e : String, call = Except.error e →
        generateDescription apiKey call = fallbackNoKey ∨
        generateDescription apiKey call = fallbackFailed) := by
  refine ⟨?_, fun k _ e => rfl, ?_⟩
  · intro h
    rw [h]
    rfl
  · intro e he
    cases apiKey with
    | none => exact Or.inl rfl
    | some k =>
        rw [he]
        exact Or.inr rfl

/-- Witness for C8: both fallback branches at concrete inputs. -/
theorem generateDescription_never_fails_witness :
    generateDescription none (Except.ok "hello") = fallbackNoKey ∧
    generateDescription (some "key") (Except.error "network down") =
      fallbackFailed :=
  ⟨(generateDescription_never_fails none (Except.ok "hello")).1 rfl,
   (generateDescription_never_fails (some "key")
      (Except.error "network down")).2.1 "key" rfl "network down"⟩

/-- **C9.** When a generation call actually starts (non-blank trimmed
description), the item id is a member of the in-progress set in the state
created at call start, and is not a member of the set in the final state,
for every call outcome — success and thrown error alike; the collaborator
is indeed invoked. -/
theorem generating_cleared_on_settle (apiKey : Option String) (s : AppState)
    (id : String) (desc : String) (call : Except String String)
    (h : (jsTrim desc).data.isEmpty = false) :
    id ∈ (startGenerating s id).generating ∧
    id ∉ (handleGenerateDescription apiKey s id desc call).1.generating ∧
    (handleGenerateDescription apiKey s id desc call).2 = true := by
  refine ⟨Finset.mem_insert_self id s.generating, ?_, ?_⟩
  · unfold handleGenerateDescription
    rw [h]
    simp [settleGenerating]
  · unfold handleGenerateDescription
    rw [h]
    simp

/-- Witness for C9: a concrete non-blank description, with a successful
call and with a failing one. -/
theorem generating_cleared_on_settle_witness :
    "a" ∈ (startGenerating ⟨[], ∅⟩ "a").generating ∧
    "a" ∉ (handleGenerateDescription none ⟨[], ∅⟩ "a" "Catering"
        (Except.ok "text")).1.generating ∧
    "a" ∉ (handleGenerateDescription (some "k") ⟨[], ∅⟩ "a" "Catering"
        (Except.error "boom")).1.generating :=
  ⟨(generating_cleared_on_settle none ⟨[], ∅⟩ "a" "Catering"
      (Except.ok "text") (by decide)).1,
   (generating_cleared_on_settle none ⟨[], ∅⟩ "a" "Catering"
      (Except.ok "text") (by decide)).2.1,
   (generating_cleared_on_settle (some "k") ⟨[], ∅⟩ "a" "Catering"
      (Except.error "boom") (by decide)).2.1⟩

/-- **C10.** With a blank (empty or whitespace-only) description, the
handler is a complete no-op: the state is returned unchanged, the id is
not added to the in-progress set, and the collaborator is not invoked
(the `false` flag, and the result not depending on `call`). -/
theorem blank_description_noop (apiKey : Option String) (s : AppState)
    (id : String) (desc : String) (call : Except String String)
    (h : (jsTrim desc).data.isEmpty = true) :
    handleGenerateDescription apiKey s id desc call = (s, false) := by
  unfold handleGenerateDescription
  rw [h]
  simp

/-- Witness for C10: a whitespace-only description on a concrete state,
with both call outcomes. -/
theorem blank_description_noop_witness :
    handleGenerateDescription none ⟨[⟨"a", "d", 1, 2⟩], ∅⟩ "a" "   "
        (Except.ok "text") = (⟨[⟨"a", "d", 1, 2⟩], ∅⟩, false) ∧
    handleGenerateDescription (some "k") ⟨[⟨"a", "d", 1, 2⟩], ∅⟩ "a" ""
        (Except.error "boom") = (⟨[⟨"a", "d", 1, 2⟩], ∅⟩, false) :=
  ⟨blank_description_noop none ⟨[⟨"a", "d", 1, 2⟩], ∅⟩ "a" "   "
      (Except.ok "text") (by decide),
   blank_description_noop (some "k") ⟨[⟨"a", "d", 1, 2⟩], ∅⟩ "a" ""
      (Except.error "boom") (by decide)⟩

end AuraElite
